import Mathlib

/-! # CTerminal: the command interpreter of `src/shell.c`

A shallow embedding of the dispatcher loop of `main`, of the builtins `cd` and `wait`, of the
interrupt handler `stop_fg_process` and of the child image's executable search, followed by the
properties of these definitions.

Conventions of the embedding:
* a `char*` is an `Option String` (`none` is `NULL`);
* the C `int` counters and flags of `main` are natural numbers (a line holds at most 4096
  characters, so no counter comes near the range of `int`);
* a `pid_t` is an `Int`;
* system calls are recorded, in program order, in the `trace` of the shell state; what a system
  call answers is supplied by a `World`;
* undefined behaviour of the C program (a write outside a block, a dereference of `NULL` or of a
  released block, a second `free`, an overflow of a fixed buffer) is a `Fault`.
-/

namespace CTerminal

/-! ## Token sequences (`tokenizer.h`) -/

/-- Modelled from the spec: the tokenizer is not among the sources; a token sequence is an
"ordered collection of strings with by-index access and a length query". -/
abbrev Tokens := List String

/-- Modelled from the spec: `length(seq) -> int` of the tokenizer. -/
def tokens_get_length (tokens : Tokens) : Nat := tokens.length

/-- Modelled from the spec: `get(seq, i) -> string` of the tokenizer; `NULL` outside the
sequence. -/
def tokens_get_token (tokens : Tokens) (n : Nat) : Option String := tokens[n]?

/-! ## Faults -/

/-- Undefined behaviour of the C program, and the exhaustion of a loop bound of the model. -/
inductive Fault where
  | outOfBounds
  | nullDeref
  | doubleFree
  | useAfterFree
  | bufferOverflow
  | outOfFuel
deriving DecidableEq, Repr

/-! ## The builtin table and `lookup` -/

/-- The five handlers of `cmd_table`. -/
inductive Builtin where
  | cmd_help
  | cmd_exit
  | cmd_cd
  | cmd_pwd
  | cmd_wait
deriving DecidableEq, Repr

/-- An entry of `cmd_table` (`fun_desc_t`). -/
structure fun_desc where
  func : Builtin
  cmd : String
  doc : String
deriving DecidableEq, Repr

/-- The table `cmd_table`. -/
def cmd_table : List fun_desc :=
  [ ⟨.cmd_help, "?", "show this help menu"⟩,
    ⟨.cmd_exit, "exit", "exit the command shell"⟩,
    ⟨.cmd_cd, "cd", "changes the current working directory"⟩,
    ⟨.cmd_pwd, "pwd", "shows the current working directory"⟩,
    ⟨.cmd_wait, "wait", "waits for all background jobs have terminated"⟩ ]

/-- The loop of `lookup`, from index `i` over the remaining entries. -/
def lookupFrom (cmd : Option String) : Nat → List fun_desc → Int
  | _, [] => -1
  | i, d :: rest => if cmd = some d.cmd then (i : Int) else lookupFrom cmd (i + 1) rest

/-- The function `lookup`: index of the builtin named `cmd`, or `-1` (also for `NULL`). -/
def lookup (cmd : Option String) : Int := lookupFrom cmd 0 cmd_table

/-! ## The argument scan of `main` (lines 188-217) -/

/-- The locals of the scan: the counters `i`, `j`, the flags `out`, `in`, `bg`, the targets
`outto`, `infrom`, and the block `argv`. -/
structure ScanState where
  i : Nat
  j : Nat
  out : Nat
  in_ : Nat
  bg : Nat
  outto : Option String
  infrom : Option String
  argv : List (Option String)
deriving DecidableEq, Repr

/-- The write `*(block + k) = v`; `none` when `k` is outside the block. -/
def writeAt (block : List (Option String)) (k : Nat) (v : Option String) :
    Option (List (Option String)) :=
  if k < block.length then some (block.set k v) else none

/-- The block `malloc(sizeof(char*) * n)`: `n` cells of unspecified content `junk`. -/
def mallocArgv (junk : Nat → Option String) (n : Nat) : List (Option String) :=
  (List.range n).map junk

/-- One pass through the body of the `for` loop on the token `temp`. The flag of the result
is `true` when the body leaves the loop through `break`. -/
def scanBody (temp : String) (s : ScanState) : Except Fault (Bool × ScanState) :=
  if s.out = 1 then
    .ok (false, { s with outto := some temp, out := 2 })
  else if s.in_ = 1 then
    .ok (false, { s with infrom := some temp, in_ := 2 })
  else if temp = "<" then
    .ok (false, { s with in_ := 1 })
  else if temp = ">" then
    .ok (false, { s with out := 1 })
  else if temp = "&" then
    .ok (true, { s with bg := 1 })
  else
    match writeAt s.argv s.j (some temp) with
    | none => .error .outOfBounds
    | some block => .ok (false, { s with argv := block, j := s.j + 1 })

/-- The loop `for (i = 0; i < numargs; i++)`, bounded by `fuel` iterations. -/
def scanLoop (tokens : Tokens) : Nat → ScanState → Except Fault ScanState
  | 0, s => if s.i < tokens_get_length tokens then .error .outOfFuel else .ok s
  | fuel + 1, s =>
    if s.i < tokens_get_length tokens then
      match tokens_get_token tokens s.i with
      | none => .error .nullDeref
      | some temp =>
        match scanBody temp s with
        | .error f => .error f
        | .ok (true, s1) => .ok s1
        | .ok (false, s1) => scanLoop tokens fuel { s1 with i := s1.i + 1 }
    else .ok s

/-- The locals at the entry of the loop, over the freshly allocated block. -/
def scanInit (block : List (Option String)) : ScanState :=
  { i := 0, j := 0, out := 0, in_ := 0, bg := 0, outto := none, infrom := none, argv := block }

/-- Lines 189-217 of `main`: allocate `numargs + 1` cells, run the loop, write the terminating
`NULL` at index `j`. -/
def scan (junk : Nat → Option String) (tokens : Tokens) : Except Fault ScanState :=
  let numargs := tokens_get_length tokens
  match scanLoop tokens numargs (scanInit (mallocArgv junk (numargs + 1))) with
  | .error f => .error f
  | .ok s =>
    match writeAt s.argv s.j none with
    | none => .error .outOfBounds
    | some block => .ok { s with argv := block }

/-- The argument vector as `execve` reads it: the cells before the first `NULL`. -/
def argvView : List (Option String) → List String
  | [] => []
  | none :: _ => []
  | some a :: rest => a :: argvView rest

/-! ## Shell state, system calls and outcomes -/

/-- A node `struct bgelem` of the background list; `next = 0` is `NULL`. -/
structure bgelem where
  bgp : Int
  next : Nat
deriving DecidableEq, Repr

/-- The system and library calls the shell makes, as they appear in the trace. -/
inductive Event where
  | fork
  | waitpid (pid : Int)
  | kill (pid : Int) (sig : Int)
  | killpg (pgrp : Int) (sig : Int)
  | setpgid (pid : Int) (pgid : Int)
  | setpgrp
  | sigactionRestore
  | freeArgv
  | freeNode (p : Nat)
  | chdir (path : String) (result : Int)
  | stdout (text : String)
  | prompt (line_num : Nat)
  | perror
  | freopenStdout (path : Option String)
  | openStdin (path : Option String)
  | execve (path : Option String)
  | tokens_destroy
deriving DecidableEq, Repr

/-- The globals of `shell.c` (`fgpid`, `bglist`, `shell_is_interactive`), the counter `line_num`
of `main`, the live `bgelem` nodes of the C heap, the working directory of the process and the
trace of the calls made so far. -/
structure ShellState where
  shell_is_interactive : Bool
  fgpid : Int
  bglist : Nat
  heap : List (Nat × bgelem)
  line_num : Nat
  cwd : String
  trace : List Event
deriving DecidableEq, Repr

/-- Append calls to the trace. -/
def ShellState.emit (s : ShellState) (es : List Event) : ShellState :=
  { s with trace := s.trace ++ es }

/-- What the system answers while one line is processed. -/
structure World where
  /-- value of `fork()` in the image that is modelled -/
  fork : Int
  /-- value of `getenv("PATH")` -/
  envpath : Option String
  /-- whether `execve` on this path replaces the image -/
  execve : String → Bool
  /-- the directory `chdir` moves to from the current one, or `none` when it fails -/
  chdir : String → String → Option String
  /-- whether `getcwd` succeeds -/
  getcwd : Bool
  /-- address returned by `malloc(sizeof(struct bgelem))`; `0` when it fails -/
  malloc : Nat
  /-- content of the cells of the block returned for `argv` -/
  junk : Nat → Option String

/-- How a piece of the program ends: it returns a value, the process calls `exit`, the image is
replaced by `execve`, or the program runs into undefined behaviour. -/
inductive Outcome (α : Type) where
  | ret (value : α) (s : ShellState)
  | exited (status : Int) (s : ShellState)
  | execd (path : String) (argv : List String) (s : ShellState)
  | crashed (f : Fault) (s : ShellState)
deriving DecidableEq, Repr

/-- Read the node at address `p` of the heap. -/
def heapGet (heap : List (Nat × bgelem)) (p : Nat) : Option bgelem :=
  (heap.find? (fun e => e.1 = p)).map Prod.snd

/-- The call `free(p)` on a node: the node is no longer live. -/
def heapFree (heap : List (Nat × bgelem)) (p : Nat) : List (Nat × bgelem) :=
  heap.filter (fun e => e.1 ≠ p)

/-! ## Builtins -/

/-- The builtin `cmd_pwd`. -/
def cmd_pwd (w : World) (_tokens : Tokens) (s : ShellState) : Outcome Int :=
  if w.getcwd = false then .ret 1 s
  else .ret 0 (s.emit [.stdout (s.cwd ++ "\n")])

/-- The builtin `cmd_cd`: `strcpy(address, input2); chdir(input2); return 0;`. -/
def cmd_cd (w : World) (tokens : Tokens) (s : ShellState) : Outcome Int :=
  if tokens_get_length tokens < 2 then .ret 1 s
  else
    match tokens_get_token tokens 1 with
    | none => .crashed .nullDeref s
    | some input2 =>
      if 4096 < input2.utf8ByteSize + 1 then .crashed .bufferOverflow s
      else
        match w.chdir s.cwd input2 with
        | some dir => .ret 0 ({ s with cwd := dir }.emit [.chdir input2 0])
        | none => .ret 0 (s.emit [.chdir input2 (-1)])

/-- The builtin `cmd_help`. -/
def cmd_help (_tokens : Tokens) (s : ShellState) : Outcome Int :=
  .ret 1 (s.emit (cmd_table.map (fun d => .stdout (d.cmd ++ " - " ++ d.doc ++ "\n"))))

/-- The builtin `cmd_exit`. -/
def cmd_exit (_tokens : Tokens) (s : ShellState) : Outcome Int :=
  .exited 0 s

/-- The loop `while (cur != NULL)` of `cmd_wait`, bounded by `fuel` iterations: wait for
`cur->bgp`, step to `cur->next`, release the node. -/
def waitLoop : Nat → Nat → ShellState → Except (Fault × ShellState) ShellState
  | 0, cur, s => if cur = 0 then .ok s else .error (.outOfFuel, s)
  | fuel + 1, cur, s =>
    if cur = 0 then .ok s
    else
      match heapGet s.heap cur with
      | none => .error (.useAfterFree, s)
      | some node =>
        waitLoop fuel node.next
          ({ s with heap := heapFree s.heap cur }.emit [.waitpid node.bgp, .freeNode cur])

/-- The builtin `cmd_wait`. Every pass of the loop releases a live node, so one more pass than
there are live nodes is enough. -/
def cmd_wait (_tokens : Tokens) (s : ShellState) : Outcome Int :=
  match waitLoop (s.heap.length + 1) s.bglist s with
  | .ok s1 => .ret 0 s1
  | .error (f, s1) => .crashed f s1

/-- The call `cmd_table[fundex].fun(tokens)`. -/
def runBuiltin (w : World) (b : Builtin) (tokens : Tokens) (s : ShellState) : Outcome Int :=
  match b with
  | .cmd_help => cmd_help tokens s
  | .cmd_exit => cmd_exit tokens s
  | .cmd_cd => cmd_cd w tokens s
  | .cmd_pwd => cmd_pwd w tokens s
  | .cmd_wait => cmd_wait tokens s

/-! ## The interrupt handler -/

/-- The handler `stop_fg_process`. -/
def stop_fg_process (signum : Int) (s : ShellState) : ShellState :=
  if s.fgpid = 0 then s
  else s.emit [.killpg s.fgpid signum]

/-! ## The child image (lines 226-254) -/

/-- The successive results of `strtok(_, ":")` on a string: its maximal runs of characters
other than `:`; `acc` holds the current run, reversed. -/
def strtokFields : List Char → List Char → List String
  | [], acc => if acc = [] then [] else [String.mk acc.reverse]
  | c :: cs, acc =>
    if c = ':' then
      (if acc = [] then strtokFields cs [] else String.mk acc.reverse :: strtokFields cs [])
    else strtokFields cs (c :: acc)

/-- The three calls `strcpy(result, pathappend); strcat(result, "/"); strcat(result, progname)`
into the 4096 bytes of `result`. -/
def buildResult (pathappend : String) (progname : Option String) : Except Fault String :=
  match progname with
  | none => .error .nullDeref
  | some p =>
    if 4096 < (pathappend ++ "/" ++ p).utf8ByteSize + 1 then .error .bufferOverflow
    else .ok (pathappend ++ "/" ++ p)

/-- The loop `while (pathappend != NULL)`: try `result`, take the next directory from `strtok`,
leave the loop when there is none; then `perror` and `exit(0)`. -/
def pathLoop (w : World) (progname : Option String) (argv : List String) :
    List String → String → ShellState → Outcome Unit
  | rest, result, s =>
    if w.execve result = true then .execd result argv (s.emit [.execve (some result)])
    else
      match rest with
      | [] => .exited 0 (s.emit [.execve (some result), .perror])
      | pathappend :: rest1 =>
        match buildResult pathappend progname with
        | .error f => .crashed f (s.emit [.execve (some result)])
        | .ok result1 => pathLoop w progname argv rest1 result1 (s.emit [.execve (some result)])

/-- The branch `cur == 0` of `main`. -/
def childImage (w : World) (progname : Option String) (sc : ScanState) (s : ShellState) :
    Outcome Unit :=
  let s1 := s.emit [.sigactionRestore, .setpgrp]
  let s2 := if sc.out = 2 then s1.emit [.freopenStdout sc.outto] else s1
  let s3 := if sc.in_ = 2 then s2.emit [.openStdin sc.infrom] else s2
  let argv := argvView sc.argv
  let s4 := s3.emit [.execve progname]
  match progname.map w.execve with
  | some true => .execd (progname.getD "") argv s4
  | _ =>
    match w.envpath with
    | none => .crashed .nullDeref s4
    | some path =>
      match strtokFields path.toList [] with
      | [] => .crashed .nullDeref s4
      | pathappend :: rest =>
        match buildResult pathappend progname with
        | .error f => .crashed f s4
        | .ok result => pathLoop w progname argv rest result s4

/-! ## The dispatcher (the body of the read loop of `main`) -/

/-- The branch `else` of `if (cur == 0)`: the parent image, and also the image in which `fork`
failed. `argvLive` tells whether the block `argv` has not been released yet. -/
def parentImage (w : World) (cur : Int) (argvLive : Bool) (sc : ScanState) (s : ShellState) :
    Outcome Unit :=
  if argvLive = false then .crashed .doubleFree (s.emit [.freeArgv])
  else
    let s1 := s.emit [.freeArgv, .setpgid cur cur]
    if sc.bg = 0 then
      .ret () ({ s1 with fgpid := cur }.emit [.waitpid cur])
    else if sc.bg = 1 then
      if w.malloc = 0 then .crashed .nullDeref s1
      else
        .ret () { s1 with heap := (w.malloc, { bgp := cur, next := s1.bglist }) :: s1.heap,
                          bglist := w.malloc }
    else .ret () s1

/-- The branch of `main` that runs a command as a program (lines 185-272). -/
def launch (w : World) (tokens : Tokens) (s : ShellState) : Outcome Unit :=
  let progname := tokens_get_token tokens 0
  match scan w.junk tokens with
  | .error f => .crashed f s
  | .ok sc =>
    let cur := w.fork
    let s0 := s.emit [.fork]
    let s1 := if cur < 0 then s0.emit [.freeArgv, .stdout "Fork failed, program not called."]
              else s0
    let argvLive := if cur < 0 then false else true
    if cur = 0 then childImage w progname sc s1
    else parentImage w cur argvLive sc s1

/-- The body of the loop `while (fgets(line, 4096, stdin))` on a tokenized line. The result
`ret` means that the body has reached its end and the next line is read. -/
def processLine (w : World) (tokens : Tokens) (s : ShellState) : Outcome Unit :=
  let fundex := lookup (tokens_get_token tokens 0)
  let r : Outcome Unit :=
    if 0 ≤ fundex then
      match cmd_table[fundex.toNat]? with
      | none => .crashed .outOfBounds s
      | some d =>
        match runBuiltin w d.func tokens s with
        | .ret _ s1 => .ret () s1
        | .exited c s1 => .exited c s1
        | .execd p a s1 => .execd p a s1
        | .crashed f s1 => .crashed f s1
    else launch w tokens s
  match r with
  | .ret _ s1 =>
    let s2 := if s1.shell_is_interactive = true
      then { s1 with line_num := s1.line_num + 1 }.emit [.prompt (s1.line_num + 1)] else s1
    .ret () (s2.emit [.tokens_destroy])
  | other => other

/-- The state of `main` when the read loop is entered (`bglist = NULL`, `fgpid = NULL`,
`line_num = 0`, the first prompt printed on a terminal). -/
def initState (interactive : Bool) (cwd : String) : ShellState :=
  { shell_is_interactive := interactive, fgpid := 0, bglist := 0, heap := [], line_num := 0,
    cwd := cwd, trace := if interactive = true then [.prompt 0] else [] }

/-- The read loop on a list of tokenized lines, each with the answers of the system while it is
processed; at the end of the input `main` returns 0. -/
def runLines : List (World × Tokens) → ShellState → Outcome Unit
  | [], s => .ret () s
  | (w, tokens) :: rest, s =>
    match processLine w tokens s with
    | .ret _ s1 => runLines rest s1
    | other => other

/-- A world for the examples: `fork` answers `cur`, `PATH` is `envpath`, no `execve` succeeds,
`chdir` succeeds exactly on `/tmp`, new nodes are placed at address `addr`. -/
def sampleWorld (cur : Int) (envpath : Option String) (addr : Nat) : World :=
  { fork := cur, envpath := envpath, execve := fun _ => false,
    chdir := fun _ d => if d = "/tmp" then some "/tmp" else none,
    getcwd := true, malloc := addr, junk := fun _ => none }

/-! ## The Command of a token sequence -/

/-- The Command that the scan derives: positional arguments, the flags `out`, `in`, `bg` and
the redirection targets. -/
structure Command where
  args : List String
  out : Nat
  in_ : Nat
  bg : Nat
  outto : Option String
  infrom : Option String
deriving DecidableEq, Repr

/-- The Command held by the locals of the scan once the terminating `NULL` is written. -/
def commandOf (s : ScanState) : Command :=
  { args := argvView s.argv, out := s.out, in_ := s.in_, bg := s.bg,
    outto := s.outto, infrom := s.infrom }

/-- The Command before any token is scanned. -/
def emptyCommand : Command :=
  { args := [], out := 0, in_ := 0, bg := 0, outto := none, infrom := none }

/-- The body of the scan loop, token after token over the remaining tokens, on a Command
instead of the block and the counters. -/
def parse : List String → Command → Command
  | [], c => c
  | temp :: rest, c =>
    if c.out = 1 then parse rest { c with outto := some temp, out := 2 }
    else if c.in_ = 1 then parse rest { c with infrom := some temp, in_ := 2 }
    else if temp = "<" then parse rest { c with in_ := 1 }
    else if temp = ">" then parse rest { c with out := 1 }
    else if temp = "&" then { c with bg := 1 }
    else parse rest { c with args := c.args ++ [temp] }

/-- Whether a token is one of the operator tokens `<`, `>`, `&`. -/
def isOperator (t : String) : Bool :=
  decide (t = "<") || decide (t = ">") || decide (t = "&")

/-- The positional arguments of a token sequence, read left to right: a `<` or `>` takes the
token after it as its operand, whatever that token is; the first `&` that is not such an operand
ends the sequence; every other token is an argument. `pending` tells that the token before was a
`<` or `>` waiting for its operand. -/
def specArgsFrom : Bool → List String → List String
  | _, [] => []
  | true, _ :: rest => specArgsFrom false rest
  | false, t :: rest =>
    if t = "<" ∨ t = ">" then specArgsFrom true rest
    else if t = "&" then []
    else t :: specArgsFrom false rest

/-- The positional arguments of a whole token sequence. -/
def specArgs (tokens : Tokens) : List String := specArgsFrom false tokens

/-- The tokens that are neither an operator token nor directly after a `<` or `>` token;
`prev` is the token before. -/
def dropOperatorsAndOperands : Option String → List String → List String
  | _, [] => []
  | prev, t :: rest =>
    if isOperator t = true ∨ prev = some "<" ∨ prev = some ">" then
      dropOperatorsAndOperands (some t) rest
    else t :: dropOperatorsAndOperands (some t) rest

/-- The positional arguments in the words of the specification: of the part of the sequence
before the background marker `&`, the tokens that are neither an operator token nor the token
immediately following a `<` or `>`. -/
def statedArgs (tokens : Tokens) : List String :=
  dropOperatorsAndOperands none (tokens.takeWhile (fun t => decide (t ≠ "&")))

/-- The locals `s` of the scan hold the Command `c`: the first `j` cells of the block are the
arguments, and the flags and targets agree. -/
def Holds (s : ScanState) (c : Command) : Prop :=
  s.argv.take s.j = c.args.map some ∧ s.j = c.args.length ∧ s.out = c.out ∧ s.in_ = c.in_ ∧
    s.bg = c.bg ∧ s.outto = c.outto ∧ s.infrom = c.infrom

/-! ## Properties of the scan -/

theorem take_set_succ {α : Type} (l : List α) (j : Nat) (a : α) (h : j < l.length) :
    (l.set j a).take (j + 1) = l.take j ++ [a] := by
  rw [List.take_succ, List.getElem?_set_self (by simpa using h), List.set_take,
    List.set_eq_of_length_le (by simp)]
  rfl

theorem argvView_of_take (l : List (Option String)) (args : List String) (j : Nat)
    (h : l.take (j + 1) = args.map some ++ [none]) (hj : j = args.length) :
    argvView l = args := by
  subst hj
  induction args generalizing l with
  | nil =>
    cases l with
    | nil => simp at h
    | cons a l => simp at h; subst h; rfl
  | cons a args ih =>
    cases l with
    | nil => simp at h
    | cons b l =>
      simp only [List.length_cons, List.take_succ_cons, List.map_cons, List.cons_append,
        List.cons.injEq] at h
      obtain ⟨rfl, h⟩ := h
      simp only [argvView]
      rw [ih l h]

/-- The loop of the scan ends without fault and leaves the Command computed by `parse`. -/
theorem scanLoop_parse (tokens : Tokens) (fuel : Nat) :
    ∀ (s : ScanState) (c : Command), Holds s c → s.i ≤ tokens.length →
      tokens.length - s.i ≤ fuel → s.j ≤ s.i → s.argv.length = tokens.length + 1 →
      ∃ s1, scanLoop tokens fuel s = .ok s1 ∧ Holds s1 (parse (tokens.drop s.i) c) ∧
        s1.j ≤ s1.i ∧ s1.i ≤ tokens.length ∧ s1.argv.length = tokens.length + 1 := by
  induction fuel with
  | zero =>
    intro s c hc hi hf _ hlen
    have : s.i = tokens.length := by omega
    refine ⟨s, ?_, ?_, by assumption, hi, hlen⟩
    · simp [scanLoop, tokens_get_length, this]
    · simpa [this, parse] using hc
  | succ fuel ih =>
    intro s c hc hi hf hji hlen
    by_cases hlt : s.i < tokens.length
    · have hget : tokens_get_token tokens s.i = some tokens[s.i] := by
        simp [tokens_get_token, List.getElem?_eq_getElem hlt]
      have hdrop : tokens.drop s.i = tokens[s.i] :: tokens.drop (s.i + 1) :=
        List.drop_eq_getElem_cons hlt
      obtain ⟨h1, h2, h3, h4, h5, h6, h7⟩ := hc
      rw [hdrop]
      simp only [scanLoop, tokens_get_length, hlt, if_true, hget, scanBody, parse]
      by_cases ho : s.out = 1
      · have ho2 : c.out = 1 := by rw [← h3]; exact ho
        simp only [ho, ho2, if_true]
        apply ih
        · exact ⟨h1, h2, rfl, h4, h5, rfl, h7⟩
        · simpa using hlt
        · simp; omega
        · simp; omega
        · exact hlen
      · have ho2 : ¬ c.out = 1 := by rw [← h3]; exact ho
        simp only [ho, ho2, if_false]
        by_cases hin : s.in_ = 1
        · have hin2 : c.in_ = 1 := by rw [← h4]; exact hin
          simp only [hin, hin2, if_true]
          apply ih
          · exact ⟨h1, h2, h3, rfl, h5, h6, rfl⟩
          · simpa using hlt
          · simp; omega
          · simp; omega
          · exact hlen
        · have hin2 : ¬ c.in_ = 1 := by rw [← h4]; exact hin
          simp only [hin, hin2, if_false]
          by_cases hA : tokens[s.i] = "<"
          · simp only [hA, if_true]
            apply ih
            · exact ⟨h1, h2, h3, rfl, h5, h6, h7⟩
            · simpa using hlt
            · simp; omega
            · simp; omega
            · exact hlen
          · simp only [hA, if_false]
            by_cases hB : tokens[s.i] = ">"
            · simp only [hB, if_true]
              apply ih
              · exact ⟨h1, h2, rfl, h4, h5, h6, h7⟩
              · simpa using hlt
              · simp; omega
              · simp; omega
              · exact hlen
            · simp only [hB, if_false]
              by_cases hC : tokens[s.i] = "&"
              · simp only [hC, if_true]
                exact ⟨_, rfl, ⟨h1, h2, h3, h4, rfl, h6, h7⟩, hji, hi, hlen⟩
              · have hw : s.j < s.argv.length := by omega
                simp only [hC, if_false, writeAt, hw, if_true]
                apply ih
                · refine ⟨?_, ?_, h3, h4, h5, h6, h7⟩
                  · show (s.argv.set s.j (some tokens[s.i])).take (s.j + 1) = _
                    rw [take_set_succ _ _ _ hw, h1]
                    simp
                  · show s.j + 1 = _
                    simp [h2]
                · simpa using hlt
                · simp; omega
                · simp; omega
                · simpa using hlen
    · have : s.i = tokens.length := by omega
      refine ⟨s, ?_, ?_, hji, hi, hlen⟩
      · simp [scanLoop, tokens_get_length, this]
      · simpa [this, parse] using hc

/-- The scan of `main` ends without fault; its locals hold the Command computed by `parse`,
the block holds the arguments followed by `NULL`, and `j ≤ i ≤ numargs`. -/
theorem scan_parse (junk : Nat → Option String) (tokens : Tokens) :
    ∃ s, scan junk tokens = .ok s ∧ commandOf s = parse tokens emptyCommand ∧
      s.argv.take (s.j + 1) = (parse tokens emptyCommand).args.map some ++ [none] ∧
      s.j = (parse tokens emptyCommand).args.length ∧
      s.j ≤ s.i ∧ s.i ≤ tokens.length ∧ s.argv.length = tokens.length + 1 := by
  have hinit : Holds (scanInit (mallocArgv junk (tokens.length + 1))) emptyCommand := by
    simp [Holds, scanInit, emptyCommand]
  obtain ⟨s1, hs1, hc, hji, hi, hlen⟩ :=
    scanLoop_parse tokens tokens.length _ _ hinit (by simp [scanInit]) (by simp [scanInit])
      (by simp [scanInit]) (by simp [scanInit, mallocArgv])
  simp only [scanInit, List.drop_zero] at hc
  obtain ⟨h1, h2, h3, h4, h5, h6, h7⟩ := hc
  have hw : s1.j < s1.argv.length := by omega
  have htake : (s1.argv.set s1.j none).take (s1.j + 1)
      = (parse tokens emptyCommand).args.map some ++ [none] := by
    rw [take_set_succ _ _ _ hw, h1]
  refine ⟨{ s1 with argv := s1.argv.set s1.j none }, ?_, ?_, htake, h2, hji, hi, ?_⟩
  · simp only [scan, tokens_get_length]
    rw [hs1]
    simp [writeAt, hw]
  · simp only [commandOf]
    rw [argvView_of_take _ _ _ htake h2, h3, h4, h5, h6, h7]
  · simpa using hlen

theorem parse_args (l : List String) :
    ∀ c : Command, ¬ (c.out = 1 ∧ c.in_ = 1) → (parse l c).args
      = c.args ++ specArgsFrom (decide (c.out = 1 ∨ c.in_ = 1)) l := by
  induction l with
  | nil => intro c _; cases h : decide (c.out = 1 ∨ c.in_ = 1) <;> simp [parse, specArgsFrom]
  | cons t rest ih =>
    intro c hc
    by_cases ho : c.out = 1
    · have hin : ¬ c.in_ = 1 := fun h => hc ⟨ho, h⟩
      simp only [parse, ho, if_true, true_or, decide_True, specArgsFrom]
      rw [ih _ (by simp)]
      simp [hin]
    · by_cases hin : c.in_ = 1
      · simp only [parse, ho, hin, if_true, if_false, or_true, decide_True, specArgsFrom]
        rw [ih _ (by simp)]
        simp [ho]
      · by_cases hA : t = "<"
        · simp only [parse, ho, hin, hA, if_true, if_false, or_self, decide_False,
            specArgsFrom, true_or]
          rw [ih _ (by simp [ho])]
          simp
        · by_cases hB : t = ">"
          · subst hB
            simp only [parse, ho, hin, hA, if_true, if_false, or_self, decide_False,
              specArgsFrom, or_true]
            rw [ih _ (by simp [hin])]
            simp
          · by_cases hC : t = "&"
            · simp [parse, ho, hin, hC, specArgsFrom]
            · simp only [parse, ho, hin, hA, hB, hC, if_false, or_self, decide_False,
                specArgsFrom]
              rw [ih _ (by simp [ho])]
              simp [ho, hin]

theorem parse_append (pre rest : List String) :
    ∀ c : Command, c.bg = 0 → (parse pre c).bg = 0 →
      parse (pre ++ rest) c = parse rest (parse pre c) := by
  induction pre with
  | nil => intro c _ _; rfl
  | cons t pre ih =>
    intro c hc hp
    simp only [List.cons_append, parse] at hp ⊢
    by_cases ho : c.out = 1
    · simp only [ho, if_true] at hp ⊢
      exact ih _ hc hp
    · simp only [ho, if_false] at hp ⊢
      by_cases hin : c.in_ = 1
      · simp only [hin, if_true] at hp ⊢
        exact ih _ hc hp
      · simp only [hin, if_false] at hp ⊢
        by_cases hA : t = "<"
        · simp only [hA, if_true] at hp ⊢
          exact ih _ hc hp
        · simp only [hA, if_false] at hp ⊢
          by_cases hB : t = ">"
          · simp only [hB, if_true] at hp ⊢
            exact ih _ hc hp
          · simp only [hB, if_false] at hp ⊢
            by_cases hC : t = "&"
            · simp only [hC, if_true] at hp
              simp at hp
            · simp only [hC, if_false] at hp ⊢
              exact ih _ hc hp

theorem specArgsFrom_no_operator (l : List String) (h : ∀ t ∈ l, isOperator t = false) :
    specArgsFrom false l = l := by
  induction l with
  | nil => rfl
  | cons t rest ih =>
    have ht := h t (List.mem_cons_self _ _)
    simp only [isOperator, Bool.or_eq_false_iff, decide_eq_false_iff_not] at ht
    obtain ⟨⟨hA, hB⟩, hC⟩ := ht
    simp only [specArgsFrom, hA, hB, hC, or_self, if_false]
    rw [ih (fun u hu => h u (List.mem_cons_of_mem _ hu))]

/-! ## Properties of `cmd_wait` -/

theorem heapFree_length_lt (heap : List (Nat × bgelem)) (p : Nat) (node : bgelem)
    (h : heapGet heap p = some node) : (heapFree heap p).length < heap.length := by
  unfold heapGet at h
  cases hf : heap.find? (fun e => decide (e.1 = p)) with
  | none => simp [hf] at h
  | some e =>
    have hmem := List.mem_of_find?_eq_some hf
    have hp := List.find?_some hf
    unfold heapFree
    rw [List.length_filter_lt_length_iff_exists]
    exact ⟨e, hmem, by simpa using hp⟩

/-- The bound of `waitLoop` is never exhausted when it exceeds the number of live nodes, and
the loop never assigns `bglist`. -/
theorem waitLoop_spec (fuel : Nat) :
    ∀ (cur : Nat) (s : ShellState), s.heap.length < fuel →
      (∀ s1, waitLoop fuel cur s ≠ .error (.outOfFuel, s1)) ∧
      (∀ s1, waitLoop fuel cur s = .ok s1 → s1.bglist = s.bglist) := by
  induction fuel with
  | zero => intro cur s h; omega
  | succ fuel ih =>
    intro cur s h
    by_cases hc : cur = 0
    · simp only [waitLoop, hc, if_true]
      exact ⟨fun s1 hs => (by cases hs), fun s1 hs => (by cases hs; rfl)⟩
    · simp only [waitLoop, hc, if_false]
      cases hg : heapGet s.heap cur with
      | none => exact ⟨fun s1 hs => (by cases hs), fun s1 hs => (by cases hs)⟩
      | some node =>
        have hlt := heapFree_length_lt s.heap cur node hg
        exact ih node.next _ (by simp only [ShellState.emit]; omega)

/-- The builtin `cmd_wait` never exhausts the bound of its loop; when it returns, it returns 0
and `bglist` holds the address it held before. -/
theorem cmd_wait_spec (tokens : Tokens) (s : ShellState) :
    (∀ s1, cmd_wait tokens s ≠ .crashed .outOfFuel s1) ∧
    (∀ v s1, cmd_wait tokens s = .ret v s1 → v = 0 ∧ s1.bglist = s.bglist) := by
  obtain ⟨h1, h2⟩ := waitLoop_spec (s.heap.length + 1) s.bglist s (Nat.lt_succ_self _)
  unfold cmd_wait
  cases hw : waitLoop (s.heap.length + 1) s.bglist s with
  | ok s2 =>
    refine ⟨fun s1 hs => (by cases hs), fun v s1 hs => ?_⟩
    cases hs
    exact ⟨rfl, h2 _ hw⟩
  | error e =>
    obtain ⟨f, s2⟩ := e
    refine ⟨fun s1 hs => ?_, fun v s1 hs => (by cases hs)⟩
    cases hs
    exact h1 _ hw

/-! ## The claims -/

/-- C1, as stated, fails: on `ls < & x` (not a builtin) the scan takes `&` as the operand of
`<` and goes on, so the argument vector is `ls x`, while the tokens before the `&` that are
neither operators nor directly after `<` or `>` are `ls` alone. -/
theorem stated_argv_counterexample :
    lookup (tokens_get_token ["ls", "<", "&", "x"] 0) < 0 ∧
    (scan (fun _ => none) ["ls", "<", "&", "x"]).toOption.map commandOf
      = some { args := ["ls", "x"], out := 0, in_ := 2, bg := 0, outto := none,
               infrom := some "&" } ∧
    statedArgs ["ls", "<", "&", "x"] = ["ls"] ∧
    (scan (fun _ => none) ["ls", "<", "&", "x"]).toOption.map (fun s => argvView s.argv)
      ≠ some (statedArgs ["ls", "<", "&", "x"]) := by
  decide

/-- C1, amended: for every token sequence that does not match a builtin, the scan ends
without fault and the block `argv` holds exactly the tokens of `specArgs`, in order, followed by
one `NULL`: the tokens that are neither taken as the operand of a `<` or `>` before them
(whatever their text) nor scanned as an operator, up to the first `&` that is not such an
operand. For a sequence without operator tokens the argument vector is the whole sequence. -/
theorem argv_is_specArgs (junk : Nat → Option String) (tokens : Tokens)
    (_hnot : lookup (tokens_get_token tokens 0) < 0) :
    ∃ s, scan junk tokens = .ok s ∧
      s.argv.take (s.j + 1) = (specArgs tokens).map some ++ [none] ∧
      argvView s.argv = specArgs tokens ∧
      ((∀ t ∈ tokens, isOperator t = false) → argvView s.argv = tokens) := by
  obtain ⟨s, hs, hcmd, htake, hj, _, _, _⟩ := scan_parse junk tokens
  have hargs : (parse tokens emptyCommand).args = specArgs tokens := by
    rw [parse_args tokens emptyCommand (by simp [emptyCommand])]
    simp [emptyCommand, specArgs]
  rw [hargs] at htake hj
  have hview : argvView s.argv = specArgs tokens := argvView_of_take _ _ _ htake hj
  refine ⟨s, hs, htake, hview, ?_⟩
  intro hno
  rw [hview, specArgs, specArgsFrom_no_operator tokens hno]

/-- Witness of C1 amended: `sort < in.txt -r & x` gives the vector `sort -r`, and the
operator-free `ls -l` gives `ls -l`. -/
theorem argv_is_specArgs_witness :
    (∃ s, scan (fun _ => none) ["sort", "<", "in.txt", "-r", "&", "x"] = .ok s ∧
      s.argv.take (s.j + 1) = [some "sort", some "-r", none]) ∧
    (∃ s, scan (fun _ => none) ["ls", "-l"] = .ok s ∧ argvView s.argv = ["ls", "-l"]) := by
  constructor
  · obtain ⟨s, hs, ht, _, _⟩ :=
      argv_is_specArgs (fun _ => none) ["sort", "<", "in.txt", "-r", "&", "x"] (by decide)
    exact ⟨s, hs, by rw [ht]; decide⟩
  · obtain ⟨s, hs, _, _, hall⟩ := argv_is_specArgs (fun _ => none) ["ls", "-l"] (by decide)
    exact ⟨s, hs, hall (by decide)⟩

/-- C2, as stated, fails: on `ls > & x` the `&` directly follows a `>` whose operand is
pending; the scan takes `&` as the output target, does not mark the Command background and
makes the later token `x` an argument. -/
theorem stated_background_counterexample :
    (scan (fun _ => none) ["ls", ">", "&", "x"]).toOption.map commandOf
      = some { args := ["ls", "x"], out := 2, in_ := 0, bg := 0, outto := some "&",
               infrom := none } := by
  decide

/-- C2, amended: let `pre` be tokens in which the scan finds no background marker. If no
redirection operand is pending after `pre`, then on `pre ++ "&" :: post` the scan stops at that
`&`: the Command is the Command of `pre` marked background, so no token at or after the `&` is
an argument or a redirection target. If a `>` (or `<`) is waiting for its operand after `pre`,
the `&` becomes the output (input) target, the Command is not marked background by it and the
scan goes on over `post`. -/
theorem background_marker_amended (junk1 junk2 : Nat → Option String) (pre post : Tokens)
    (sp : ScanState) (hpre : scan junk1 pre = .ok sp) (hbg : sp.bg = 0) :
    ∃ s, scan junk2 (pre ++ "&" :: post) = .ok s ∧
      (sp.out ≠ 1 ∧ sp.in_ ≠ 1 → commandOf s = { commandOf sp with bg := 1 }) ∧
      (sp.out = 1 →
        commandOf s = parse post { commandOf sp with outto := some "&", out := 2 }) ∧
      (sp.out ≠ 1 ∧ sp.in_ = 1 →
        commandOf s = parse post { commandOf sp with infrom := some "&", in_ := 2 }) := by
  obtain ⟨s0, hs0, hc0, _⟩ := scan_parse junk1 pre
  rw [hpre] at hs0
  cases hs0
  obtain ⟨s, hs, hc, _⟩ := scan_parse junk2 (pre ++ "&" :: post)
  have hbg0 : (parse pre emptyCommand).bg = 0 := by rw [← hc0]; exact hbg
  rw [parse_append pre _ emptyCommand rfl hbg0, ← hc0] at hc
  have hne1 : ¬ (("&" : String) = "<") := by decide
  have hne2 : ¬ (("&" : String) = ">") := by decide
  refine ⟨s, hs, ?_, ?_, ?_⟩
  · rintro ⟨ho, hin⟩
    rw [hc]
    have ho1 : ¬ (commandOf sp).out = 1 := ho
    have hin1 : ¬ (commandOf sp).in_ = 1 := hin
    simp only [parse, ho1, hin1, hne1, hne2, if_true, if_false]
  · intro ho
    rw [hc]
    have ho1 : (commandOf sp).out = 1 := ho
    simp only [parse, ho1, if_true]
  · rintro ⟨ho, hin⟩
    rw [hc]
    have ho1 : ¬ (commandOf sp).out = 1 := ho
    have hin1 : (commandOf sp).in_ = 1 := hin
    simp only [parse, ho1, hin1, if_true, if_false]

/-- Witness of C2 amended: after `sleep 5 > log` nothing is pending, and
`sleep 5 > log & more > x` yields the Command of `sleep 5 > log` marked background; after
`ls >` the operand of `>` is pending, and `ls > & x` yields the target `&`, no background mark
and the argument `x`. -/
theorem background_marker_amended_witness :
    (∃ s, scan (fun _ => none) (["sleep", "5", ">", "log"] ++ "&" :: ["more", ">", "x"]) = .ok s ∧
      commandOf s = { args := ["sleep", "5"], out := 2, in_ := 0, bg := 1,
                      outto := some "log", infrom := none }) ∧
    (∃ s, scan (fun _ => none) (["ls", ">"] ++ "&" :: ["x"]) = .ok s ∧
      commandOf s = { args := ["ls", "x"], out := 2, in_ := 0, bg := 0,
                      outto := some "&", infrom := none }) := by
  have hpre : scan (fun _ => none) ["sleep", "5", ">", "log"] = .ok
      { i := 4, j := 2, out := 2, in_ := 0, bg := 0, outto := some "log", infrom := none,
        argv := [some "sleep", some "5", none, none, none] } := rfl
  have hpre2 : scan (fun _ => none) ["ls", ">"] = .ok
      { i := 2, j := 1, out := 1, in_ := 0, bg := 0, outto := none, infrom := none,
        argv := [some "ls", none, none] } := rfl
  constructor
  · obtain ⟨s, hs, h1, _, _⟩ :=
      background_marker_amended (fun _ => none) (fun _ => none) ["sleep", "5", ">", "log"]
        ["more", ">", "x"] _ hpre rfl
    exact ⟨s, hs, by rw [h1 (by decide)]; decide⟩
  · obtain ⟨s, hs, _, h2, _⟩ :=
      background_marker_amended (fun _ => none) (fun _ => none) ["ls", ">"] ["x"] _ hpre2 rfl
    exact ⟨s, hs, by rw [h2 rfl]; decide⟩

/-- C9: for every signal number and every state, the handler `stop_fg_process` makes no call
when `fgpid` is 0 and otherwise exactly one call, `killpg(fgpid, signum)`, which addresses the
process group `fgpid` with the same signal; nothing of the shell state changes (`fgpid`,
`bglist`, the nodes of the background list and everything else but the trace). -/
theorem stop_fg_process_forwards (signum : Int) (s : ShellState) :
    (stop_fg_process signum s).trace
        = s.trace ++ (if s.fgpid = 0 then [] else [Event.killpg s.fgpid signum]) ∧
      (stop_fg_process signum s).fgpid = s.fgpid ∧
      (stop_fg_process signum s).bglist = s.bglist ∧
      (stop_fg_process signum s).heap = s.heap ∧
      { stop_fg_process signum s with trace := s.trace } = s := by
  cases s with
  | mk inter fg bgl heap ln cwd tr =>
    by_cases h : fg = 0
    · simp [stop_fg_process, h]
    · simp [stop_fg_process, h, ShellState.emit]

/-- C10: for every token sequence of length `n` the scan ends without fault (no write leaves
the block of `n + 1` cells, no loop bound is exhausted), with `j ≤ i ≤ n`, so that the index `j`
of the terminating `NULL` is inside the block. -/
theorem scan_writes_in_bounds (junk : Nat → Option String) (tokens : Tokens) :
    ∃ s, scan junk tokens = .ok s ∧ s.j ≤ s.i ∧ s.i ≤ tokens_get_length tokens ∧
      s.argv.length = tokens_get_length tokens + 1 ∧ s.j < s.argv.length := by
  obtain ⟨s, hs, _, _, _, hji, hi, hlen⟩ := scan_parse junk tokens
  exact ⟨s, hs, hji, hi, hlen, by omega⟩

/-- C3, the code at a failing input: `cd /nonexistent` with `chdir` failing (it answers -1)
returns 0, the value it returns when `chdir` succeeds, and the working directory is
unchanged. -/
theorem cmd_cd_returns_zero_on_failed_chdir :
    cmd_cd (sampleWorld 0 none 1) ["cd", "/nonexistent"] (initState false "/")
      = .ret 0 { shell_is_interactive := false, fgpid := 0, bglist := 0, heap := [],
                 line_num := 0, cwd := "/", trace := [.chdir "/nonexistent" (-1)] } ∧
    cmd_cd (sampleWorld 0 none 1) ["cd", "/tmp"] (initState false "/")
      = .ret 0 { shell_is_interactive := false, fgpid := 0, bglist := 0, heap := [],
                 line_num := 0, cwd := "/tmp", trace := [.chdir "/tmp" 0] } := by
  decide

/-- C4, the code at a failing input: after `sleep 5 &` (pid 100, node at address 1) the builtin
`wait` waits for pid 100 and releases the node, but `bglist` still holds address 1 and no live
node is left there; a second `wait` reads the released node; a later background launch (pid 101,
node at address 2) links its node to the released one. -/
theorem cmd_wait_leaves_bglist_dangling :
    runLines [(sampleWorld 100 none 1, ["sleep", "5", "&"]), (sampleWorld 0 none 1, ["wait"])]
        (initState false "/")
      = .ret () { shell_is_interactive := false, fgpid := 0, bglist := 1, heap := [],
                  line_num := 0, cwd := "/",
                  trace := [.fork, .freeArgv, .setpgid 100 100, .tokens_destroy,
                            .waitpid 100, .freeNode 1, .tokens_destroy] } ∧
    runLines [(sampleWorld 100 none 1, ["sleep", "5", "&"]), (sampleWorld 0 none 1, ["wait"]),
              (sampleWorld 0 none 1, ["wait"])] (initState false "/")
      = .crashed .useAfterFree
          { shell_is_interactive := false, fgpid := 0, bglist := 1, heap := [],
            line_num := 0, cwd := "/",
            trace := [.fork, .freeArgv, .setpgid 100 100, .tokens_destroy,
                      .waitpid 100, .freeNode 1, .tokens_destroy] } ∧
    runLines [(sampleWorld 100 none 1, ["sleep", "5", "&"]), (sampleWorld 0 none 1, ["wait"]),
              (sampleWorld 101 none 2, ["sleep", "7", "&"])] (initState false "/")
      = .ret () { shell_is_interactive := false, fgpid := 0, bglist := 2,
                  heap := [(2, { bgp := 101, next := 1 })], line_num := 0, cwd := "/",
                  trace := [.fork, .freeArgv, .setpgid 100 100, .tokens_destroy,
                            .waitpid 100, .freeNode 1, .tokens_destroy,
                            .fork, .freeArgv, .setpgid 101 101, .tokens_destroy] } := by
  decide

/-- C5, the code at a failing input: after the foreground command `ls` (pid 100) has been
waited for, the loop is back at its top with `fgpid = 100`, and an interrupt (signal 2) arriving
then is forwarded to process group 100. -/
theorem fgpid_not_cleared_after_foreground_job :
    runLines [(sampleWorld 100 none 1, ["ls"])] (initState false "/")
      = .ret () { shell_is_interactive := false, fgpid := 100, bglist := 0, heap := [],
                  line_num := 0, cwd := "/",
                  trace := [.fork, .freeArgv, .setpgid 100 100, .waitpid 100,
                            .tokens_destroy] } ∧
    (stop_fg_process 2
        { shell_is_interactive := false, fgpid := 100, bglist := 0, heap := [],
          line_num := 0, cwd := "/", trace := [] }).trace = [.killpg 100 2] := by
  decide

/-- C6, the code at a failing input: when `fork` answers -1 for the command `ls`, the block
`argv` is released, the diagnostic is printed, and control falls into the branch of the parent,
which releases `argv` a second time. -/
theorem fork_failure_frees_argv_twice :
    processLine (sampleWorld (-1) none 1) ["ls"] (initState false "/")
      = .crashed .doubleFree
          { shell_is_interactive := false, fgpid := 0, bglist := 0, heap := [],
            line_num := 0, cwd := "/",
            trace := [.fork, .freeArgv, .stdout "Fork failed, program not called.",
                      .freeArgv] } := by
  decide

/-- C7, the code at a failing input: in the child image of `nosuchprogram` with
`PATH=/bin:/usr/bin`, where no `execve` succeeds, the child calls `perror` and then ends with
exit status 0. -/
theorem child_exits_zero_when_all_attempts_fail :
    processLine (sampleWorld 0 (some "/bin:/usr/bin") 1) ["nosuchprogram"] (initState false "/")
      = .exited 0
          { shell_is_interactive := false, fgpid := 0, bglist := 0, heap := [],
            line_num := 0, cwd := "/",
            trace := [.fork, .sigactionRestore, .setpgrp, .execve (some "nosuchprogram"),
                      .execve (some "/bin/nosuchprogram"),
                      .execve (some "/usr/bin/nosuchprogram"), .perror] } := by
  decide

/-- C8, the code at a failing input: in the child image of `nosuchprogram`, when `PATH` is
unset, or set to a value without any directory (`""`, `":"`), the first `strtok` gives `NULL`
and `strcpy(result, pathappend)` reads through it right after the attempt on the literal name:
the child does not reach `perror`. -/
theorem path_search_faults_without_directory :
    processLine (sampleWorld 0 none 1) ["nosuchprogram"] (initState false "/")
      = .crashed .nullDeref
          { shell_is_interactive := false, fgpid := 0, bglist := 0, heap := [],
            line_num := 0, cwd := "/",
            trace := [.fork, .sigactionRestore, .setpgrp, .execve (some "nosuchprogram")] } ∧
    processLine (sampleWorld 0 (some "") 1) ["nosuchprogram"] (initState false "/")
      = .crashed .nullDeref
          { shell_is_interactive := false, fgpid := 0, bglist := 0, heap := [],
            line_num := 0, cwd := "/",
            trace := [.fork, .sigactionRestore, .setpgrp, .execve (some "nosuchprogram")] } ∧
    processLine (sampleWorld 0 (some ":") 1) ["nosuchprogram"] (initState false "/")
      = .crashed .nullDeref
          { shell_is_interactive := false, fgpid := 0, bglist := 0, heap := [],
            line_num := 0, cwd := "/",
            trace := [.fork, .sigactionRestore, .setpgrp, .execve (some "nosuchprogram")] } := by
  decide

end CTerminal
